import Mathlib

/-!
Verification of the reconciliation engine of the `notion-gcal-sync` Google Apps
Script project (files `src/main.gs` and the utility half of `src/calendarIds.gs`;
the repository also ships three older full-script revisions which agree on the
utility functions embedded here).

The embedding is shallow.  JavaScript `Date` values are modelled as integer
minutes since the epoch; the ambient script timezone is an explicit parameter
`o : Int`, the value returned by JavaScript's `Date.prototype.getTimezoneOffset`
(UTC minus local time, in minutes; negative east of UTC).  Daylight-saving
transitions are not modelled: the offset is constant over a run.  Network
side effects (Notion queries, calendar writes) are modelled by explicit
environment records holding the data the backends would return, and each
function returns the list of writes it performs instead of performing them.
-/

set_option autoImplicit false

namespace NotionGcalSync

/-! ## Script configuration constants (src/main.gs) -/

def COMPLETED_STATUS_NAME : String := "Completed"

def DELETED_TAG_NAME : String := "DELETED"

def IGNORE_SYNC_TAG_NAME : String := "Ignore Sync"

/-- Constant `TAG_CANCELLED_EVENTS` in src/main.gs. -/
def TAG_CANCELLED_EVENTS : Bool := true

/-- Constant `ARCHIVE_DELETED_PAGES` in src/main.gs. -/
def ARCHIVE_DELETED_PAGES : Bool := true

/-- Constant `IGNORE_RECENTLY_PUSHED` in src/main.gs. -/
def IGNORE_RECENTLY_PUSHED : Bool := true

/-! ## JavaScript dates

A date string is one of the shapes the script actually manipulates:
* `dateOnly d` — `"YYYY-MM-DD"` (a Notion all-day date, or the `start.date` /
  `end.date` field of a Google Calendar all-day event); `d` is the day number.
* `localTimed d m` — `"YYYY-MM-DDTHH:MM:SS"` with no zone suffix, which
  JavaScript parses in the *local* timezone; produced by the script when it
  appends `"T00:00:00"` to a date-only string.
* `utcTimed t` — an ISO string with an explicit offset (e.g. the output of
  `toISOString`), denoting the absolute instant `t` (minutes).
* `invalid` — a string `new Date` cannot parse (parses to `NaN`).
-/

inductive DateStr where
  | dateOnly (day : Int)
  | localTimed (day : Int) (mins : Int)
  | utcTimed (instant : Int)
  | invalid
deriving DecidableEq, Repr

/-- Semantics of `new Date(s).getTime()` in a timezone with offset `o`:
`"YYYY-MM-DD"` parses as UTC midnight, `"YYYY-MM-DDTHH:MM:SS"` as local time,
ISO strings with explicit offset as the absolute instant; `none` is `NaN`. -/
def jsParse (o : Int) : DateStr → Option Int
  | .dateOnly d => some (d * 1440)
  | .localTimed d m => some (d * 1440 + m + o)
  | .utcTimed t => some t
  | .invalid => none

/-- Semantics of `new Date(a) < new Date(b)`: numeric comparison, false if either is `NaN`. -/
def jsDateLt : Option Int → Option Int → Bool
  | some a, some b => decide (a < b)
  | _, _ => false

/-- Test `s.search` for an uppercase letter (`!== -1`): date-only strings contain no uppercase
letter; both timed shapes contain at least `T`.  (Unparsable strings are not
fed through this test by any claim; they are classed as containing one.) -/
def hasUppercase : DateStr → Bool
  | .dateOnly _ => false
  | _ => true

/-- Appending `"T00:00:00"` to a string — applied by the script only to date-only strings,
turning them into local-midnight timed strings. -/
def appendMidnight : DateStr → DateStr
  | .dateOnly d => .localTimed d 0
  | s => s

/-- UTC calendar day of an instant — the `"YYYY-MM-DD"` prefix of
`toISOString()`.  Euclidean division, which floors for the positive divisor,
as day boundaries are floors. -/
def utcDay (t : Int) : Int := t / 1440

/-- Local calendar day of an instant in a timezone with offset `o`
(the day used by `getDate`/`setDate` and by `CalendarApp` all-day writes). -/
def localDay (o t : Int) : Int := (t - o) / 1440

/-! ## Notion pages

A `Page` is a Notion database query result with its properties already
flattened: rich-text properties (`flattenRichText` of an empty rich-text
array is `""`) become plain strings, select properties become
`Option String` (`select?.name`). -/

structure NotionDate where
  start : Option DateStr
  end_ : Option DateStr
deriving DecidableEq, Repr

structure Page where
  id : String
  title : String
  eventId : String
  calendarId : Option String
  calendarName : Option String
  description : String
  location : String
  date : Option NotionDate
  tags : List String
  status : Option String
  lastSync : Option DateStr
  lastEdited : DateStr
deriving DecidableEq, Repr

/-- JavaScript truthiness of a flattened select / rich-text value. -/
def truthy : Option String → Bool
  | some s => decide (s ≠ "")
  | none => false

/-- Function `isPageUpdatedRecently` (utility half of src/calendarIds.gs): the page's
`Last Sync` start (or the number `0` when the property has no date) must
parse strictly before `last_edited_time`. -/
def isPageUpdatedRecently (o : Int) (p : Page) : Bool :=
  jsDateLt
    (match p.lastSync with
      | some d => jsParse o d
      | none => some 0)
    (jsParse o p.lastEdited)

/-! ## Push-side mapping: `convertToGCalEvent` (src/main.gs) -/

/-- The event object literal built by `convertToGCalEvent`. -/
structure GEvent where
  id : Option String
  summary : Option String
  description : Option String
  location : Option String
  start : Option DateStr
  end_ : Option DateStr
  all_day : Bool
deriving DecidableEq, Repr

/-- A falsy (empty) string is omitted from the object literal by the
`...(x && { f: x })` spreads. -/
def strOpt (s : String) : Option String :=
  if s = "" then none else some s

/-- Value `default_end`: `new Date(start)` plus sixty minutes, rendered by
`toISOString` (an absolute instant). -/
def defaultEnd (o : Int) (s : DateStr) : DateStr :=
  match jsParse o s with
  | some t => .utcTimed (t + 60)
  | none => .invalid

/-- The three-branch `if`/`else if` chain of `convertToGCalEvent` that
normalizes `dates.date` *in place* and computes `all_day`.  Returns the
mutated date object and the final `all_day` flag. -/
def normalizeDates (o : Int) (d0 : NotionDate) : NotionDate × Bool :=
  let all_day0 := d0.end_.isNone
  match d0.start with
  | some s =>
    if ¬ hasUppercase s then
      ({ start := some (appendMidnight s), end_ := d0.end_ }, true)
    else if d0.end_.isNone then
      ({ start := some s, end_ := some (defaultEnd o s) }, false)
    else
      match d0.end_ with
      | some e =>
        if ¬ hasUppercase e then
          ({ start := some s, end_ := some (appendMidnight e) }, true)
        else (d0, all_day0)
      | none => (d0, all_day0)
  | none =>
    match d0.end_ with
    | some e =>
      if ¬ hasUppercase e then
        ({ start := none, end_ := some (appendMidnight e) }, true)
      else (d0, all_day0)
    | none => (d0, all_day0)

/-- Function `convertToGCalEvent(page_result)`.  The JavaScript function mutates
`page_result.properties[DATE_NOTION].date` through the alias `dates`, so the
embedding returns the page as left behind by the call together with the
result (`none` models the `null` return when the date property is absent).
`hasLocationProp` is `doesDatabaseHaveProperty(LOCATION_NOTION)`. -/
def convertToGCalEvent (o : Int) (hasLocationProp : Bool) (p : Page) :
    Page × Option GEvent :=
  match p.date with
  | none => (p, none)
  | some d0 =>
    let nd := normalizeDates o d0
    let ev : GEvent :=
      { id := strOpt p.eventId
        summary := strOpt p.title
        description := strOpt p.description
        location := if hasLocationProp then strOpt p.location else none
        start := nd.1.start
        end_ := nd.1.end_
        all_day := nd.2 }
    ({ p with date := some nd.1 }, some ev)

/-! ## Calendar writes: `createEvent` (src/main.gs)

`CalendarApp.createAllDayEvent` keeps only the script-timezone calendar day of
each `Date` argument, the end day being exclusive; a single-argument all-day
event ends the following day.  `createEvent` (timed) keeps the instants.  The
value below is the event as the Google Calendar API would afterwards list it. -/

inductive CreatedEvent where
  | allDayEvent (startDay : Int) (endDayExclusive : Int)
  | timedEvent (start : Int) (end_ : Option Int)
deriving DecidableEq, Repr

/-- The calendar-side effect of `createEvent(page, event, calendar_name)`:
`none` models the `null` return (the API rejected the arguments, e.g. an
unparsable or missing start).  The one-day forward shift of an all-day end
(`shifted_date.setDate(getDate() + 1)`) acts on the local calendar day. -/
def createEventOnCalendar (o : Int) (ev : GEvent) : Option CreatedEvent :=
  match ev.start with
  | none => none
  | some s =>
    match jsParse o s with
    | none => none
    | some ts =>
      if ev.all_day then
        match ev.end_ with
        | some e =>
          match jsParse o e with
          | none => none
          | some te => some (.allDayEvent (localDay o ts) (localDay o (te + 1440)))
        | none => some (.allDayEvent (localDay o ts) (localDay o ts + 1))
      else
        match ev.end_ with
        | some e =>
          match jsParse o e with
          | none => none
          | some te => some (.timedEvent ts (some te))
        | none => none

/-! ## Pull-side events and `convertToNotionProperty` (src/main.gs) -/

/-- The `start`/`end` field of a Google Calendar API event: exactly one of
`date` (all-day, a day number) and `dateTime` is present in real payloads. -/
structure ApiDate where
  date : Option Int
  dateTime : Option DateStr
deriving DecidableEq, Repr

/-- A Google Calendar API event as consumed by `parseEvents` /
`convertToNotionProperty`.  `cal_name` is the property `parseEvents` assigns
(`event["cal_name"] = events["cal_name"]`). -/
structure ApiEvent where
  id : String
  summary : Option String
  status : Option String
  start : Option ApiDate
  end_ : Option ApiDate
  description : Option String
  location : Option String
  cal_name : Option String
deriving DecidableEq, Repr

/-- A Notion page-update payload.  Every field is optional: `none` means the
property is absent from the payload.  For `eventId` and `calendarId`,
`some none` is the property set to an empty value (empty rich-text array /
`select: null`), which is how the script clears a back-reference. -/
structure NotionProps where
  lastSync : Option DateStr := none
  eventId : Option (Option String) := none
  calendarId : Option (Option String) := none
  calendarName : Option (Option String) := none
  name : Option String := none
  date : Option NotionDate := none
  tags : Option (List String) := none
  description : Option String := none
  location : Option String := none
deriving DecidableEq, Repr

/-- Lookup `CALENDAR_IDS[name]` for an optional name (`event.cal_name` may be
absent, in which case the lookup yields `undefined`). -/
def lookupCal (calendarIds : String → Option String) : Option String → Option String
  | some n => calendarIds n
  | none => none

/-- Function `getBaseNotionProperties(event_id, calendar_name)` (src/main.gs): stamps
`Last Sync` with the current time and records the event/calendar linkage.
It writes no date property. -/
def getBaseNotionProperties (now : Int) (calendarIds : String → Option String)
    (event_id : String) (cal_name : Option String) : NotionProps :=
  { lastSync := some (.utcTimed now)
    eventId := some (some event_id)
    calendarId := some (lookupCal calendarIds cal_name)
    calendarName := some cal_name }

/-- The all-day branch of `convertToNotionProperty`: parse both `date`
fields (UTC midnight), add the timezone offset, move the exclusive end back
one local day, take the UTC date of each, and drop the end if it now equals
the start. -/
def pullAllDayDates (o : Int) (sd ed : Int) : NotionDate :=
  let start_time := utcDay (sd * 1440 + o)
  let end_time := utcDay (ed * 1440 + o - 1440)
  { start := some (.dateOnly start_time)
    end_ := if start_time = end_time then none else some (.dateOnly end_time) }

/-- Function `convertToNotionProperty(event, existing_tags)` (src/main.gs). -/
def convertToNotionProperty (o now : Int) (calendarIds : String → Option String)
    (hasLocationProp : Bool) (ev : ApiEvent) (existing_tags : List String) :
    NotionProps :=
  let base := getBaseNotionProperties now calendarIds ev.id ev.cal_name
  let dateProp : Option NotionDate :=
    match ev.start with
    | none => none
    | some st =>
      match st.date with
      | some sd =>
        match ev.end_ with
        | some en =>
          match en.date with
          | some ed => some (pullAllDayDates o sd ed)
          -- `new Date(event.end.date)` with the field absent is an invalid
          -- date whose `toISOString` throws; real all-day events from the
          -- Calendar API always carry `end.date`, so this corner is inert.
          | none => some { start := some .invalid, end_ := some .invalid }
        | none => some { start := some .invalid, end_ := some .invalid }
      | none =>
        some { start := st.dateTime
               end_ := match ev.end_ with
                       | some en => en.dateTime
                       | none => none }
  let cancelled := ev.status = some "cancelled"
  { base with
    name := some (ev.summary.getD "")
    date := dateProp
    eventId := if cancelled then some none else base.eventId
    calendarId := if cancelled then some none else base.calendarId
    tags := if cancelled ∧ TAG_CANCELLED_EVENTS
            then some (existing_tags ++ [DELETED_TAG_NAME]) else none
    description := some (ev.description.getD "")
    location := if hasLocationProp then some (ev.location.getD "") else none }

/-- Function `updateDatabaseSyncTime(page_id)`: a payload carrying only a fresh
`Last Sync` stamp. -/
def updateDatabaseSyncTimeProps (now : Int) : NotionProps :=
  { lastSync := some (.utcTimed now) }

/-- Function `removeEventReferences(page_id)`: clears only `Event ID` and
`Calendar ID`. -/
def removeEventReferencesProps : NotionProps :=
  { eventId := some none, calendarId := some none }

/-- Function `checkNotionProperties(properties)` (utility half of
src/calendarIds.gs): only the description length is checked. -/
def checkNotionProperties (props : NotionProps) : Bool :=
  if (props.description.getD "").length > 2000 then false else true

/-! ## DeletionProcessor: `processDeletedPages` (src/main.gs)

The Notion query (filter on tags / status / non-empty event id, which the
backend evaluates) is modelled by the `results` list the backend returns;
`deleteSuccess` is the outcome `deleteEvent(event_id, calendar_id)` would
report for a pair of ids ("not found" already surfaces as `false` there). -/

inductive DelType where
  | deleted
  | completed
deriving DecidableEq, Repr

structure DelEnv where
  results : List Page
  deleteSuccess : String → String → Bool
  hasStatusProp : Bool
  o : Int

/-- A write performed against the Notion database by the deletion pass. -/
inductive NotionEffect where
  | archivePage (pageId : String)
  | clearEventRefs (pageId : String)
deriving DecidableEq, Repr

def notionEffectPageId : NotionEffect → String
  | .archivePage i => i
  | .clearEventRefs i => i

/-- The per-page Notion update at the bottom of the `processDeletedPages`
loop: archive outright for the DELETED-tag pass (when
`ARCHIVE_DELETED_PAGES`), otherwise clear the event back-references. -/
def notionUpdateFor (type : DelType) (r : Page) : NotionEffect :=
  if type = .deleted ∧ ARCHIVE_DELETED_PAGES
  then .archivePage r.id else .clearEventRefs r.id

/-- The processing loop of `processDeletedPages`: returns the
`deleted_eIds` set (as a list) and the Notion writes performed.  On a failed
calendar deletion the loop `continue`s, skipping the Notion update. -/
def processDeletedPagesLoop (env : DelEnv) (type : DelType) :
    List Page → List String × List NotionEffect
  | [] => ([], [])
  | r :: rest =>
    let next := processDeletedPagesLoop env type rest
    if ¬ isPageUpdatedRecently env.o r then next
    else
      if truthy (strOpt r.eventId) ∧ truthy r.calendarId then
        if env.deleteSuccess r.eventId (r.calendarId.getD "") then
          (r.eventId :: next.1, notionUpdateFor type r :: next.2)
        else
          next
      else
        (next.1, notionUpdateFor type r :: next.2)

/-- Function `processDeletedPages(type)`: for the "completed" pass on a database
without a `Status` property the function logs and returns `undefined`
(modelled as `none`); otherwise it runs the loop over the query results. -/
def processDeletedPages (env : DelEnv) (type : DelType) :
    Option (List String × List NotionEffect) :=
  if type = .completed ∧ ¬ env.hasStatusProp then none
  else some (processDeletedPagesLoop env type env.results)

/-! ## PushSync: `syncToGCal` (src/main.gs)

The query payload (page size 100, tag/status exclusions) is evaluated by the
backend and modelled by the `results` list; the calendar write outcomes are
oracles keyed by the ids involved. -/

structure PushEnv where
  results : List Page
  calendarIds : String → Option String
  defaultCalendarName : String
  deleteSuccess : String → String → Bool
  pushUpdateSuccess : String → Bool
  createdId : String → Option String
  hasLocationProp : Bool
  o : Int

/-- An action `syncToGCal` takes for one page (attempted, whether or not the
underlying calendar call succeeds).  The page id records which query result
triggered it. -/
inductive PushAction where
  | removeOrphanEvent (pageId eventId : String)
  | updateEvent (pageId eventId : String)
  | moveEvent (pageId oldEventId : String) (newEventId : Option String) (deleteOk : Bool)
  | createNewEvent (pageId : String) (newEventId : Option String)
deriving DecidableEq, Repr

def pushActionPageId : PushAction → String
  | .removeOrphanEvent i _ => i
  | .updateEvent i _ => i
  | .moveEvent i _ _ _ => i
  | .createNewEvent i _ => i

/-- The processing loop of `syncToGCal`: returns the `modified_eIds` set (as
a list) and the actions attempted.  An event id enters the set only when the
corresponding calendar write is confirmed (update success; move with both a
successful delete and a created id; create with a returned id). -/
def syncToGCalLoop (env : PushEnv) : List Page → List String × List PushAction
  | [] => ([], [])
  | result :: rest =>
    let next := syncToGCalLoop env rest
    if ¬ isPageUpdatedRecently env.o result then next
    else
      let ev? := (convertToGCalEvent env.o env.hasLocationProp result).2
      let calendar_id := result.calendarId
      let calendar_name := result.calendarName.getD env.defaultCalendarName
      match ev? with
      | none =>
        -- date property missing: delete a still-referenced event, else skip
        if truthy (strOpt result.eventId) ∧ truthy calendar_id then
          (next.1, .removeOrphanEvent result.id result.eventId :: next.2)
        else next
      | some ev =>
        if truthy (env.calendarIds calendar_name) ∧ truthy calendar_id ∧ truthy ev.id then
          let eid := (ev.id.getD "")
          if calendar_id = env.calendarIds calendar_name then
            -- update in place
            if env.pushUpdateSuccess result.id then
              (eid :: next.1, .updateEvent result.id eid :: next.2)
            else
              (next.1, .updateEvent result.id eid :: next.2)
          else
            -- move: delete from the old calendar, recreate in the new one
            let delOk := env.deleteSuccess eid (calendar_id.getD "")
            let newId := env.createdId result.id
            if delOk ∧ newId.isSome then
              (newId.getD "" :: next.1, .moveEvent result.id eid newId delOk :: next.2)
            else
              (next.1, .moveEvent result.id eid newId delOk :: next.2)
        else
          if truthy (env.calendarIds calendar_name) then
            match env.createdId result.id with
            | some nid => (nid :: next.1, .createNewEvent result.id (some nid) :: next.2)
            | none => (next.1, .createNewEvent result.id none :: next.2)
          else next

/-- Function `syncToGCal()`: run the loop over the query results. -/
def syncToGCal (env : PushEnv) : List String × List PushAction :=
  syncToGCalLoop env env.results

/-! ## PullSync: `parseEvents` and helpers (src/main.gs)

`getPage` models the Notion query inside `getPageFromEvent`: the page whose
`Event ID` rich-text equals the event id (excluding `IGNORE_SYNC`-tagged
pages), if any.  In the current src/main.gs, `getPageFromEvent` *throws*
`PageNotFoundError` when the query comes back empty (its older revisions
returned `false`); `parseEvents` calls it outside any `try`, so the `none`
case aborts the whole batch there, while `handleEventCancelled` catches it. -/

structure PullEnv where
  getPage : String → Option Page
  skipBad : Bool
  calendarIds : String → Option String
  hasLocationProp : Bool
  now : Int
  o : Int

inductive PullErr where
  | pageNotFound (eventId : String)
  | invalidEvent (eventId : String)
deriving DecidableEq, Repr

/-- A Notion write prepared or performed by the pull pass. -/
inductive PullAction where
  | updateEntry (eventId pageId : String) (props : NotionProps) (archive : Bool)
  | createEntry (eventId : String) (props : NotionProps)
  | cancelUpdate (eventId pageId : String) (props : NotionProps) (archive : Bool)
deriving DecidableEq, Repr

def pullActionEventId : PullAction → String
  | .updateEntry e _ _ _ => e
  | .createEntry e _ => e
  | .cancelUpdate e _ _ _ => e

/-- Function `updateDatabaseEntry(event, page_id, existing_tags, multi)`: the
properties pushed and the archive flag (`cancelled && TAG_CANCELLED_EVENTS
&& ARCHIVE_DELETED_PAGES`). -/
def updateDatabaseEntry (env : PullEnv) (ev : ApiEvent) (existing_tags : List String) :
    NotionProps × Bool :=
  (convertToNotionProperty env.o env.now env.calendarIds env.hasLocationProp ev existing_tags,
   ev.status = some "cancelled" ∧ TAG_CANCELLED_EVENTS ∧ ARCHIVE_DELETED_PAGES)

/-- Function `createDatabaseEntry(event)`: converts the event (with no existing tags)
and throws `InvalidEventError` when `checkNotionProperties` rejects the
result. -/
def createDatabaseEntry (env : PullEnv) (ev : ApiEvent) : Except PullErr NotionProps :=
  let props := convertToNotionProperty env.o env.now env.calendarIds env.hasLocationProp ev []
  if ¬ checkNotionProperties props then .error (.invalidEvent ev.id)
  else .ok props

/-- Function `handleEventCancelled(event)`: update the linked page with empty
`existing_tags`; a `PageNotFoundError` from `getPageFromEvent` is caught and
the event is skipped. -/
def handleEventCancelled (env : PullEnv) (ev : ApiEvent) : Option PullAction :=
  match env.getPage ev.id with
  | some page =>
    let u := updateDatabaseEntry env ev []
    some (.cancelUpdate ev.id page.id u.1 u.2)
  | none => none

/-- The event loop of `parseEvents(events, ignored_eIds)`.  Returns the
actions performed/queued before the first uncaught error, and that error if
one occurred.  Note the order of the guards: the `ignored_eIds` test runs
before the cancellation test, and an uncaught `PageNotFoundError` from
`getPageFromEvent` aborts the loop before the creation branch is reached. -/
def parseEventsLoop (env : PullEnv) (cal_name : String) (ignored : List String) :
    List ApiEvent → List PullAction × Option PullErr
  | [] => ([], none)
  | e0 :: rest =>
    if e0.summary.isNone then parseEventsLoop env cal_name ignored rest
    else
      let e := { e0 with cal_name := some cal_name }
      if e.id ∈ ignored then parseEventsLoop env cal_name ignored rest
      else if e.status = some "cancelled" then
        match handleEventCancelled env e with
        | some a =>
          let next := parseEventsLoop env cal_name ignored rest
          (a :: next.1, next.2)
        | none => parseEventsLoop env cal_name ignored rest
      else
        match env.getPage e.id with
        | some page =>
          let u := updateDatabaseEntry env e page.tags
          let next := parseEventsLoop env cal_name ignored rest
          (.updateEntry e.id page.id u.1 u.2 :: next.1, next.2)
        | none =>
          -- `getPageFromEvent` throws `PageNotFoundError`; `parseEvents`
          -- does not catch it, so the `createDatabaseEntry` branch below the
          -- `if (page_response)` check is never reached.
          ([], some (.pageNotFound e.id))

/-- Function `parseEvents(events, ignored_eIds)` over one page of events. -/
def parseEvents (env : PullEnv) (cal_name : String) (ignored : List String)
    (events : List ApiEvent) : List PullAction × Option PullErr :=
  parseEventsLoop env cal_name ignored events

/-! ## `syncFromGCal` (src/main.gs)

One page of `Calendar.Events.list` is modelled (`nextPageToken` absent); the
pagination loop repeats the body verbatim, so the cursor behaviour under
scrutiny is unchanged.  `list` is keyed by the calendar id handed to the API
and by the listing mode; its `events` are already filtered to the current
database's tag, as in the source. -/

inductive ListMode where
  | tokenMode (tok : String)
  | windowMode
deriving DecidableEq, Repr

inductive ListOutcome where
  | ok (events : List ApiEvent) (nextSyncToken : String)
  | staleToken
  | backendFailure
deriving DecidableEq, Repr

structure CursorEnv where
  pull : PullEnv
  calendarIds : String → Option String
  calendarExists : Option String → Bool
  list : String → ListMode → ListOutcome

inductive SyncErr where
  | calendarNotFound (cal_name : String)
  | listFailed
  | parseFailed (e : PullErr)
  | outOfFuel
deriving DecidableEq, Repr

/-- The observable outcome of one `syncFromGCal` call: every
`Calendar.Events.list` request issued (the `cal_name` argument in force and
the mode), the actions of the `parseEvents` calls, and either the sync token
persisted at the end (`none` for the early returns) or the error thrown. -/
structure SyncResult where
  calls : List (String × ListMode)
  actions : List PullAction
  result : Except SyncErr (Option String)
deriving Repr

/-- Function `syncFromGCal(cal_name, fullSync, ignored_eIds)` with the stored
`syncToken` made explicit.  On a stale-token rejection the stored token is
deleted and the function recurses — passing `CALENDAR_IDS[cal_name]`, the
calendar *id*, as the new `cal_name`.  `fuel` bounds the recursion depth
(2 suffices for every run the source can produce). -/
def syncFromGCal (env : CursorEnv) (fuel : Nat) (cal_name : String)
    (fullSync : Bool) (ignored : List String) (stored : Option String) :
    SyncResult :=
  match fuel with
  | 0 => { calls := [], actions := [], result := .error .outOfFuel }
  | fuel' + 1 =>
    let mode : ListMode :=
      match stored, fullSync with
      | some tok, false => .tokenMode tok
      | _, _ => .windowMode
    let calId := env.calendarIds cal_name
    if ¬ env.calendarExists calId then
      { calls := [], actions := [], result := .error (.calendarNotFound cal_name) }
    else
      match env.list (calId.getD "") mode with
      | .staleToken =>
        -- delete the stored token and retry with a full sync — but with the
        -- calendar id in the `cal_name` position
        let retry := syncFromGCal env fuel' (calId.getD "") true ignored none
        { calls := (cal_name, mode) :: retry.calls
          actions := retry.actions
          result := retry.result.map fun _ => none }
      | .backendFailure =>
        { calls := [(cal_name, mode)], actions := [], result := .error .listFailed }
      | .ok events tok =>
        if events.isEmpty then
          { calls := [(cal_name, mode)], actions := [], result := .ok none }
        else
          let parsed := parseEvents env.pull cal_name ignored events
          match parsed.2 with
          | some e =>
            { calls := [(cal_name, mode)], actions := parsed.1
              result := .error (.parseFailed e) }
          | none =>
            { calls := [(cal_name, mode)], actions := parsed.1
              result := .ok (some tok) }

/-! ## The per-database body of `main` (src/main.gs)

`main` runs the two deletion passes, then `syncToGCal`, builds
`ignored_eIds` from the three returned sets (`IGNORE_RECENTLY_PUSHED`
includes the push set), and hands it to every `syncFromGCal` call.  Spreading
the `undefined` returned by a failed "completed" pass throws, so the set only
exists when both passes return one (`none` models that abort). -/

structure MainEnv where
  delDeleted : DelEnv
  delCompleted : DelEnv
  push : PushEnv

def mainIgnoredSet (m : MainEnv) : Option (List String) :=
  match processDeletedPages m.delDeleted .deleted with
  | none => none
  | some d =>
    match processDeletedPages m.delCompleted .completed with
    | none => none
    | some c =>
      let mods := syncToGCal m.push
      some (if IGNORE_RECENTLY_PUSHED then d.1 ++ c.1 ++ mods.1 else d.1 ++ c.1)

/-! ## The all-day round trip (for the mapping claims)

A calendar event created by `createEvent` is later observed by `syncFromGCal`
as a Calendar API item: an all-day event exposes `start.date`/`end.date`
(end exclusive), a timed event exposes the instants. -/

def apiEventOfCreated (summary : Option String) : CreatedEvent → ApiEvent
  | .allDayEvent sd ed =>
    { id := "", summary := summary, status := none
      start := some { date := some sd, dateTime := none }
      end_ := some { date := some ed, dateTime := none }
      description := none, location := none, cal_name := none }
  | .timedEvent ts te =>
    { id := "", summary := summary, status := none
      start := some { date := none, dateTime := some (.utcTimed ts) }
      end_ := some { date := none, dateTime := te.map (fun x => .utcTimed x) }
      description := none, location := none, cal_name := none }

/-- Push a page's date to the calendar (`convertToGCalEvent` then
`createEvent`) and pull the resulting event back
(`convertToNotionProperty`), returning the date property the pull would
write.  The auxiliary arguments of the conversions (schema flags, calendar
map, clock) do not influence the date computation. -/
def allDayRoundTrip (o : Int) (p : Page) : Option NotionDate :=
  match (convertToGCalEvent o false p).2 with
  | none => none
  | some ev =>
    match createEventOnCalendar o ev with
    | none => none
    | some ce =>
      (convertToNotionProperty o 0 (fun _ => none) false
        (apiEventOfCreated ev.summary ce) []).date

/-! ## Sample inputs used by witnesses and counterexamples -/

def basePage : Page :=
  { id := "page-0", title := "Task", eventId := "", calendarId := none
    calendarName := none, description := "", location := "", date := none
    tags := [], status := none, lastSync := none, lastEdited := .utcTimed 9000 }

def c10EpochPage : Page := { basePage with lastEdited := .utcTimed 0 }

def c10FreshPage : Page := { basePage with lastEdited := .utcTimed 5 }

def c5Page : Page :=
  { basePage with lastSync := some (.utcTimed 50), lastEdited := .utcTimed 60 }

def c3Page : Page :=
  { basePage with id := "page-3", eventId := "ev-3", calendarId := some "cal-3"
                  tags := [DELETED_TAG_NAME] }

def c3OtherPage : Page :=
  { basePage with id := "page-4", eventId := "ev-4", calendarId := some "cal-4"
                  tags := [DELETED_TAG_NAME] }

/-- Deletion environment where the calendar delete fails exactly for
`c3Page`'s event and succeeds for `c3OtherPage`'s. -/
def c3Env : DelEnv :=
  { results := [c3Page, c3OtherPage], deleteSuccess := fun e _ => e != "ev-3"
    hasStatusProp := true, o := 0 }

def c9Page : Page := { basePage with id := "page-9", tags := ["Urgent"] }

def c9Event : ApiEvent :=
  { id := "ev-9", summary := some "Gone", status := some "cancelled"
    start := none, end_ := none, description := none, location := none
    cal_name := none }

def c9Env : PullEnv :=
  { getPage := fun i => if i = "ev-9" then some c9Page else none
    skipBad := true, calendarIds := fun _ => none, hasLocationProp := false
    now := 777, o := 0 }

def c1DelPage : Page :=
  { basePage with id := "page-1", eventId := "ev-1"
                  calendarId := some "cal-1", tags := [DELETED_TAG_NAME] }

def c1CompPage : Page :=
  { basePage with id := "page-2", eventId := "ev-2"
                  calendarId := some "cal-1", status := some COMPLETED_STATUS_NAME }

def c1PushPage : Page :=
  { basePage with id := "page-p"
                  date := some ⟨some (.utcTimed 100), some (.utcTimed 200)⟩ }

def c1Main : MainEnv :=
  { delDeleted :=
      { results := [c1DelPage], deleteSuccess := fun _ _ => true
        hasStatusProp := true, o := 0 }
    delCompleted :=
      { results := [c1CompPage], deleteSuccess := fun _ _ => true
        hasStatusProp := true, o := 0 }
    push :=
      { results := [c1PushPage]
        calendarIds := fun n => if n = "Primary" then some "cal-p" else none
        defaultCalendarName := "Primary", deleteSuccess := fun _ _ => true
        pushUpdateSuccess := fun _ => true
        createdId := fun i => if i = "page-p" then some "ev-push" else none
        hasLocationProp := false, o := 0 } }

def c6Env (skip : Bool) : PullEnv :=
  { getPage := fun _ => none, skipBad := skip, calendarIds := fun _ => none
    hasLocationProp := false, now := 0, o := 0 }

def c6Event : ApiEvent :=
  { id := "e-new", summary := some "New meeting", status := none
    start := some { date := none, dateTime := some (.utcTimed 100) }
    end_ := some { date := none, dateTime := some (.utcTimed 160) }
    description := some "", location := none, cal_name := none }

def c6LongDescription : String := String.mk (List.replicate 2001 'x')

def c6LongEvent : ApiEvent := { c6Event with description := some c6LongDescription }

def c4CalIds : String → Option String :=
  fun n => if n = "Work" then some "work-id" else none

def c4PullEnv : PullEnv :=
  { getPage := fun _ => none, skipBad := true, calendarIds := c4CalIds
    hasLocationProp := false, now := 0, o := 0 }

/-- A backend that rejects the stored token as stale but would accept a
time-window listing. -/
def c4List : String → ListMode → ListOutcome :=
  fun _ mode =>
    match mode with
    | .tokenMode _ => .staleToken
    | .windowMode => .ok [] "fresh-token"

def c4Env : CursorEnv :=
  { pull := c4PullEnv, calendarIds := c4CalIds
    calendarExists := fun i => i = some "work-id", list := c4List }

def c7MutPage : Page := { basePage with date := some ⟨some (.dateOnly 7), none⟩ }

def c7TimedPage : Page :=
  { basePage with date := some ⟨some (.utcTimed 100), some (.utcTimed 200)⟩ }

def c8Page : Page := { basePage with date := some ⟨some (.localTimed 3 600), none⟩ }

def c2Page : Page := { basePage with date := some ⟨some (.dateOnly 1), none⟩ }

def c2SinglePage : Page := { basePage with date := some ⟨some (.dateOnly 5), none⟩ }

def c2MultiPage : Page :=
  { basePage with date := some ⟨some (.dateOnly 5), some (.dateOnly 8)⟩ }

/-! ## Helper lemmas -/

/-- The Notion update of the deletion loop targets the page that matched. -/
theorem notionUpdateFor_pageId (type : DelType) (r : Page) :
    notionEffectPageId (notionUpdateFor type r) = r.id := by
  unfold notionUpdateFor
  split <;> rfl

/-- Every Notion write of the deletion loop belongs to a query result that
passed the `isPageUpdatedRecently` gate. -/
theorem processDeletedPagesLoop_pageIds (env : DelEnv) (type : DelType) :
    ∀ l : List Page, ∀ eff ∈ (processDeletedPagesLoop env type l).2,
      ∃ r ∈ l, notionEffectPageId eff = r.id ∧ isPageUpdatedRecently env.o r = true := by
  intro l
  induction l with
  | nil => intro eff h; simp [processDeletedPagesLoop] at h
  | cons r rest ih =>
    intro eff h
    simp only [processDeletedPagesLoop] at h
    split at h
    · obtain ⟨r', hr', he, hx⟩ := ih eff h
      exact ⟨r', List.mem_cons_of_mem _ hr', he, hx⟩
    · rename_i hrec
      rw [not_not] at hrec
      split at h
      · split at h
        · rcases List.mem_cons.mp h with h | h
          · exact ⟨r, List.mem_cons_self _ _, h ▸ notionUpdateFor_pageId type r, hrec⟩
          · obtain ⟨r', hr', he, hx⟩ := ih eff h
            exact ⟨r', List.mem_cons_of_mem _ hr', he, hx⟩
        · obtain ⟨r', hr', he, hx⟩ := ih eff h
          exact ⟨r', List.mem_cons_of_mem _ hr', he, hx⟩
      · rcases List.mem_cons.mp h with h | h
        · exact ⟨r, List.mem_cons_self _ _, h ▸ notionUpdateFor_pageId type r, hrec⟩
        · obtain ⟨r', hr', he, hx⟩ := ih eff h
          exact ⟨r', List.mem_cons_of_mem _ hr', he, hx⟩

/-- Every action of the push loop belongs to a query result that passed the
`isPageUpdatedRecently` gate. -/
theorem syncToGCalLoop_pageIds (env : PushEnv) :
    ∀ l : List Page, ∀ a ∈ (syncToGCalLoop env l).2,
      ∃ r ∈ l, pushActionPageId a = r.id ∧ isPageUpdatedRecently env.o r = true := by
  intro l
  induction l with
  | nil => intro a h; simp [syncToGCalLoop] at h
  | cons r rest ih =>
    intro a h
    have step : ∀ h : a ∈ (syncToGCalLoop env rest).2,
        ∃ x ∈ r :: rest, pushActionPageId a = x.id ∧ isPageUpdatedRecently env.o x = true := by
      intro h
      obtain ⟨r', hr', he, hx⟩ := ih a h
      exact ⟨r', List.mem_cons_of_mem _ hr', he, hx⟩
    simp only [syncToGCalLoop] at h
    split at h
    · exact step h
    · rename_i hrec
      rw [not_not] at hrec
      have here : ∀ {b : PushAction}, a = b → pushActionPageId b = r.id →
          ∃ x ∈ r :: rest, pushActionPageId a = x.id ∧ isPageUpdatedRecently env.o x = true := by
        intro b hb hpb
        exact ⟨r, List.mem_cons_self _ _, hb ▸ hpb, hrec⟩
      split at h
      · split at h
        · rcases List.mem_cons.mp h with h | h
          · exact here h rfl
          · exact step h
        · exact step h
      · split at h
        · split at h
          · split at h
            · rcases List.mem_cons.mp h with h | h
              · exact here h rfl
              · exact step h
            · rcases List.mem_cons.mp h with h | h
              · exact here h rfl
              · exact step h
          · split at h
            · rcases List.mem_cons.mp h with h | h
              · exact here h rfl
              · exact step h
            · rcases List.mem_cons.mp h with h | h
              · exact here h rfl
              · exact step h
        · split at h
          · split at h
            · rcases List.mem_cons.mp h with h | h
              · exact here h rfl
              · exact step h
            · rcases List.mem_cons.mp h with h | h
              · exact here h rfl
              · exact step h
          · exact step h

/-- The action produced by `handleEventCancelled` concerns the event that
was handled. -/
theorem handleEventCancelled_eventId (env : PullEnv) (e : ApiEvent)
    (a : PullAction) (h : handleEventCancelled env e = some a) :
    pullActionEventId a = e.id := by
  unfold handleEventCancelled at h
  split at h
  · cases h; rfl
  · cases h

/-- Actions emitted by the `parseEvents` loop never concern an event id from
the `ignored_eIds` set: the membership guard runs before every branch that
prepares or performs a Notion write. -/
theorem parseEventsLoop_not_ignored (env : PullEnv) (cal_name : String)
    (ignored : List String) :
    ∀ evs : List ApiEvent, ∀ a ∈ (parseEventsLoop env cal_name ignored evs).1,
      pullActionEventId a ∉ ignored := by
  intro evs
  induction evs with
  | nil => intro a h; simp [parseEventsLoop] at h
  | cons e rest ih =>
    intro a h
    simp only [parseEventsLoop] at h
    split at h
    · exact ih a h
    · split at h
      · exact ih a h
      · rename_i hmem
        split at h
        · split at h
          · rename_i heq
            rcases List.mem_cons.mp h with h | h
            · subst h
              exact (handleEventCancelled_eventId env _ _ heq) ▸ hmem
            · exact ih a h
          · exact ih a h
        · split at h
          · rcases List.mem_cons.mp h with h | h
            · subst h
              exact hmem
            · exact ih a h
          · simp only [List.not_mem_nil] at h

/-- A failed calendar deletion for a fully-linked page suppresses that
page's Notion update throughout the rest of the loop. -/
theorem c3_loop_aux (env : DelEnv) (type : DelType) (r : Page) (cid : String)
    (hev : r.eventId ≠ "") (hcal : r.calendarId = some cid) (hcid : cid ≠ "")
    (hfail : env.deleteSuccess r.eventId cid = false) :
    ∀ l : List Page, r ∈ l → (l.map Page.id).Nodup →
      ∀ eff ∈ (processDeletedPagesLoop env type l).2, notionEffectPageId eff ≠ r.id := by
  intro l
  induction l with
  | nil => intro h; cases h
  | cons hd tl ih =>
    intro hmem hnd eff heff
    rw [List.map_cons, List.nodup_cons] at hnd
    have tailstep : eff ∈ (processDeletedPagesLoop env type tl).2 →
        notionEffectPageId eff ≠ r.id := by
      intro heff' hEq
      obtain ⟨r', hr', he, _⟩ := processDeletedPagesLoop_pageIds env type tl eff heff'
      rcases List.mem_cons.mp hmem with hre | hrt
      · subst hre
        have : r'.id = r.id := by rw [← he, hEq]
        exact hnd.1 (this ▸ List.mem_map_of_mem Page.id hr')
      · exact (ih hrt hnd.2 eff heff') hEq
    rcases List.mem_cons.mp hmem with hre | hrt
    · subst hre
      simp only [processDeletedPagesLoop] at heff
      split at heff
      · exact tailstep heff
      · split at heff
        · split at heff
          · rename_i hdel
            rw [hcal, Option.getD_some, hfail] at hdel
            cases hdel
          · exact tailstep heff
        · rename_i hno
          exact absurd ⟨by simp [truthy, strOpt, hev], by rw [hcal]; simp [truthy, hcid]⟩ hno
    · have hne : notionEffectPageId (notionUpdateFor type hd) ≠ r.id := by
        rw [notionUpdateFor_pageId]
        intro hEq
        exact hnd.1 (hEq ▸ List.mem_map_of_mem Page.id hrt)
      simp only [processDeletedPagesLoop] at heff
      split at heff
      · exact ih hrt hnd.2 eff heff
      · split at heff
        · split at heff
          · rcases List.mem_cons.mp heff with h | h
            · exact h ▸ hne
            · exact ih hrt hnd.2 eff h
          · exact ih hrt hnd.2 eff heff
        · rcases List.mem_cons.mp heff with h | h
          · exact h ▸ hne
          · exact ih hrt hnd.2 eff h

/-- C3: in `processDeletedPages` (either trigger type), an entry with a
non-empty event id and calendar id whose calendar deletion fails receives
neither the archive nor the back-reference-clearing update in that pass: the
loop `continue`s past the Notion update when `deleteEvent` reports failure. -/
theorem c3_failed_delete_blocks_removal (env : DelEnv) (type : DelType)
    (r : Page) (cid : String) (out : List String × List NotionEffect)
    (hout : processDeletedPages env type = some out)
    (hmem : r ∈ env.results)
    (hnd : (env.results.map Page.id).Nodup)
    (hev : r.eventId ≠ "") (hcal : r.calendarId = some cid) (hcid : cid ≠ "")
    (hfail : env.deleteSuccess r.eventId cid = false) :
    ∀ eff ∈ out.2, notionEffectPageId eff ≠ r.id := by
  unfold processDeletedPages at hout
  split at hout
  · cases hout
  · cases hout
    exact c3_loop_aux env type r cid hev hcal hcid hfail env.results hmem hnd

theorem c3_failed_delete_blocks_removal_witness :
    notionEffectPageId (.archivePage "page-4") ≠ "page-3" :=
  c3_failed_delete_blocks_removal c3Env .deleted c3Page "cal-3"
    (processDeletedPagesLoop c3Env .deleted c3Env.results)
    rfl (by decide) (by decide) (by decide) rfl (by decide) rfl
    (.archivePage "page-4") (by decide)

/-- C5: `isPageUpdatedRecently` holds exactly when the page's last-sync
timestamp parses strictly before its `last_edited_time`, and both scans that
act on pages (`processDeletedPages` and `syncToGCal`) only act on pages for
which it holds. -/
theorem c5_staleness_gate (o : Int) (p : Page) (d : DateStr) (ts te : Int)
    (hs : p.lastSync = some d) (hts : jsParse o d = some ts)
    (hte : jsParse o p.lastEdited = some te) :
    (isPageUpdatedRecently o p = true ↔ ts < te)
    ∧ (∀ (env : DelEnv) (type : DelType) (out : List String × List NotionEffect),
        processDeletedPages env type = some out →
        ∀ eff ∈ out.2, ∃ r ∈ env.results,
          notionEffectPageId eff = r.id ∧ isPageUpdatedRecently env.o r = true)
    ∧ (∀ env : PushEnv, ∀ a ∈ (syncToGCal env).2, ∃ r ∈ env.results,
        pushActionPageId a = r.id ∧ isPageUpdatedRecently env.o r = true) := by
  refine ⟨?_, ?_, ?_⟩
  · unfold isPageUpdatedRecently
    rw [hs]
    simp [jsDateLt, hts, hte]
  · intro env type out hout eff heff
    unfold processDeletedPages at hout
    split at hout
    · cases hout
    · cases hout
      exact processDeletedPagesLoop_pageIds env type env.results eff heff
  · intro env a ha
    exact syncToGCalLoop_pageIds env env.results a ha

theorem c5_staleness_gate_witness : isPageUpdatedRecently 0 c5Page = true :=
  ((c5_staleness_gate 0 c5Page (.utcTimed 50) 50 60 rfl rfl rfl).1).mpr (by decide)

/-- C9: for a cancelled event whose page is found, `handleEventCancelled`
passes an empty `existing_tags` list, so the update sets `Tags` to exactly
the singleton `[DELETED]` whatever tags the page carried — even though
`convertToNotionProperty` itself only appends the tag to whatever list it is
given. -/
theorem c9_cancel_replaces_tags (env : PullEnv) (ev : ApiEvent) (page : Page)
    (hc : ev.status = some "cancelled") (hp : env.getPage ev.id = some page) :
    (∃ props archive, handleEventCancelled env ev
        = some (.cancelUpdate ev.id page.id props archive)
      ∧ props.tags = some [DELETED_TAG_NAME])
    ∧ ∀ ts : List String,
        (convertToNotionProperty env.o env.now env.calendarIds
          env.hasLocationProp ev ts).tags = some (ts ++ [DELETED_TAG_NAME]) := by
  constructor
  · refine ⟨(updateDatabaseEntry env ev []).1, (updateDatabaseEntry env ev []).2, ?_, ?_⟩
    · unfold handleEventCancelled
      rw [hp]
    · simp [updateDatabaseEntry, convertToNotionProperty, hc, TAG_CANCELLED_EVENTS]
  · intro ts
    simp [convertToNotionProperty, hc, TAG_CANCELLED_EVENTS]

theorem c9_cancel_replaces_tags_witness :
    ∃ props archive, handleEventCancelled c9Env c9Event
        = some (.cancelUpdate "ev-9" "page-9" props archive)
      ∧ props.tags = some [DELETED_TAG_NAME] :=
  (c9_cancel_replaces_tags c9Env c9Event c9Page rfl rfl).1

/-- C10: a page whose `Last Sync` property has no date is compared as the
epoch.  The claim as stated — such a page counts as updated whenever
`last_edited_time` parses to any valid date — fails at the epoch itself:
`new Date(0) < new Date(0)` is false. -/
theorem c10_counterexample :
    c10EpochPage.lastSync = none
    ∧ jsParse 0 c10EpochPage.lastEdited = some 0
    ∧ isPageUpdatedRecently 0 c10EpochPage = false :=
  ⟨rfl, rfl, rfl⟩

/-- C10 (amended): with a missing last-sync date the comparison baseline is
the epoch, so the page counts as updated iff its `last_edited_time` parses
to an instant strictly after the epoch (which every real Notion
`last_edited_time` is). -/
theorem c10_missing_lastSync_updated (o : Int) (p : Page)
    (h : p.lastSync = none) :
    isPageUpdatedRecently o p = true
      ↔ ∃ t, jsParse o p.lastEdited = some t ∧ 0 < t := by
  unfold isPageUpdatedRecently
  rw [h]
  cases hj : jsParse o p.lastEdited <;> simp [jsDateLt, hj]

theorem c10_missing_lastSync_updated_witness :
    isPageUpdatedRecently 0 c10FreshPage = true :=
  (c10_missing_lastSync_updated 0 c10FreshPage rfl).mpr ⟨5, rfl, by decide⟩

/-! ## Claims C1, C4, C6 -/

/-- C1: every event id returned by the two `processDeletedPages` passes and
by `syncToGCal` is in the `ignored_eIds` set `main` hands to `syncFromGCal`
(`IGNORE_RECENTLY_PUSHED` is `true` in the source, so push results are
included), and no action `parseEvents` prepares or performs concerns an id
in that set — in particular no duplicate entry is created for an event
pushed in the same invocation. -/
theorem c1_suppression_set (m : MainEnv) (d c : List String × List NotionEffect)
    (ign : List String)
    (hd : processDeletedPages m.delDeleted .deleted = some d)
    (hc : processDeletedPages m.delCompleted .completed = some c)
    (hign : mainIgnoredSet m = some ign) :
    (∀ x, x ∈ d.1 ∨ x ∈ c.1 ∨ x ∈ (syncToGCal m.push).1 → x ∈ ign)
    ∧ ∀ (env : PullEnv) (cal_name : String) (evs : List ApiEvent),
        ∀ a ∈ (parseEvents env cal_name ign evs).1, pullActionEventId a ∉ ign := by
  constructor
  · intro x hx
    unfold mainIgnoredSet at hign
    rw [hd, hc] at hign
    simp only [IGNORE_RECENTLY_PUSHED, if_true] at hign
    cases hign
    rcases hx with h | h | h
    · exact List.mem_append.mpr (Or.inl (List.mem_append.mpr (Or.inl h)))
    · exact List.mem_append.mpr (Or.inl (List.mem_append.mpr (Or.inr h)))
    · exact List.mem_append.mpr (Or.inr h)
  · intro env cal evs a ha
    exact parseEventsLoop_not_ignored env cal ign evs a ha

theorem c1_suppression_set_witness :
    ("ev-1" : String) ∈ ["ev-1", "ev-2", "ev-push"]
    ∧ ("ev-2" : String) ∈ ["ev-1", "ev-2", "ev-push"]
    ∧ ("ev-push" : String) ∈ ["ev-1", "ev-2", "ev-push"] :=
  ⟨(c1_suppression_set c1Main (["ev-1"], [.archivePage "page-1"])
      (["ev-2"], [.clearEventRefs "page-2"]) ["ev-1", "ev-2", "ev-push"]
      rfl rfl rfl).1 "ev-1" (Or.inl (by decide)),
   (c1_suppression_set c1Main (["ev-1"], [.archivePage "page-1"])
      (["ev-2"], [.clearEventRefs "page-2"]) ["ev-1", "ev-2", "ev-push"]
      rfl rfl rfl).1 "ev-2" (Or.inr (Or.inl (by decide))),
   (c1_suppression_set c1Main (["ev-1"], [.archivePage "page-1"])
      (["ev-2"], [.clearEventRefs "page-2"]) ["ev-1", "ev-2", "ev-push"]
      rfl rfl rfl).1 "ev-push" (Or.inr (Or.inr (by decide)))⟩

/-- C4 (code bug): with a stored token the backend rejects as stale and a
backend that would accept a time-window listing, `syncFromGCal` does delete
the token and recurse once in window mode — but it passes
`CALENDAR_IDS[cal_name]`, the calendar *id*, as the new `cal_name`, so the
retry fails its calendar lookup (`Calendar … not found`) and no window-mode
listing of the original calendar ever happens; the direct window-mode call
under the proper name succeeds against the same backend. -/
theorem c4_stale_cursor_retry_misses_calendar :
    (syncFromGCal c4Env 2 "Work" false [] (some "tok")).result
        = .error (.calendarNotFound "work-id")
    ∧ (syncFromGCal c4Env 2 "Work" false [] (some "tok")).calls
        = [("Work", .tokenMode "tok")]
    ∧ (syncFromGCal c4Env 2 "Work" true [] none).result = .ok none
    ∧ (syncFromGCal c4Env 2 "Work" true [] none).calls
        = [("Work", .windowMode)] :=
  ⟨rfl, rfl, rfl, rfl⟩

/-- C6 (code bug): in the current `parseEvents`, an event with no matching
page aborts the batch with the `PageNotFoundError` thrown by
`getPageFromEvent` — whether or not `SKIP_BAD_EVENTS` is set and before any
validation runs — so the guarded `createDatabaseEntry` branch is
unreachable.  The validation itself behaves as described where it is
defined: an empty description passes `checkNotionProperties`, a
2001-character description fails it, and `createDatabaseEntry` raises
`InvalidEventError` exactly on that failure. -/
theorem c6_creation_is_unreachable :
    parseEvents (c6Env true) "Primary" [] [c6Event]
        = ([], some (.pageNotFound "e-new"))
    ∧ parseEvents (c6Env false) "Primary" [] [c6Event]
        = ([], some (.pageNotFound "e-new"))
    ∧ createDatabaseEntry (c6Env true) c6Event
        = .ok (convertToNotionProperty (c6Env true).o (c6Env true).now
            (c6Env true).calendarIds (c6Env true).hasLocationProp c6Event [])
    ∧ checkNotionProperties
        (convertToNotionProperty (c6Env true).o (c6Env true).now
          (c6Env true).calendarIds (c6Env true).hasLocationProp c6Event []) = true
    ∧ createDatabaseEntry (c6Env true) c6LongEvent = .error (.invalidEvent "e-new")
    ∧ checkNotionProperties
        (convertToNotionProperty (c6Env true).o (c6Env true).now
          (c6Env true).calendarIds (c6Env true).hasLocationProp c6LongEvent [])
        = false := by
  have hlen : c6LongDescription.length = 2001 := by
    show (List.replicate 2001 'x').length = 2001
    rw [List.length_replicate]
  have hdesc : (convertToNotionProperty (c6Env true).o (c6Env true).now
      (c6Env true).calendarIds (c6Env true).hasLocationProp c6LongEvent
      []).description = some c6LongDescription := rfl
  have h6 : checkNotionProperties (convertToNotionProperty (c6Env true).o
      (c6Env true).now (c6Env true).calendarIds (c6Env true).hasLocationProp
      c6LongEvent []) = false := by
    unfold checkNotionProperties
    rw [hdesc, Option.getD_some, hlen]
    rfl
  refine ⟨rfl, rfl, rfl, rfl, ?_, h6⟩
  simp only [createDatabaseEntry]
  rw [h6]
  rfl

/-! ## Mapper lemmas (shared by the mapping claims) -/

theorem convertToGCalEvent_some (o : Int) (hloc : Bool) (p : Page)
    (d : NotionDate) (hd : p.date = some d) :
    convertToGCalEvent o hloc p =
      ({ p with date := some (normalizeDates o d).1 },
       some { id := strOpt p.eventId, summary := strOpt p.title
              description := strOpt p.description
              location := if hloc then strOpt p.location else none
              start := (normalizeDates o d).1.start
              end_ := (normalizeDates o d).1.end_
              all_day := (normalizeDates o d).2 }) := by
  unfold convertToGCalEvent
  rw [hd]

theorem normalizeDates_dateOnly_start (o : Int) (d : NotionDate) (sd : Int)
    (hs : d.start = some (.dateOnly sd)) :
    normalizeDates o d = ({ start := some (.localTimed sd 0), end_ := d.end_ }, true) := by
  unfold normalizeDates
  rw [hs]
  simp [hasUppercase, appendMidnight]

theorem normalizeDates_timed_noEnd (o : Int) (d : NotionDate) (s : DateStr)
    (hs : d.start = some s) (hup : hasUppercase s = true) (he : d.end_ = none) :
    normalizeDates o d = ({ start := some s, end_ := some (defaultEnd o s) }, false) := by
  unfold normalizeDates
  rw [hs, he]
  simp [hup]

theorem normalizeDates_timed_both (o : Int) (d : NotionDate) (s e : DateStr)
    (hs : d.start = some s) (hup : hasUppercase s = true)
    (he : d.end_ = some e) (hue : hasUppercase e = true) :
    normalizeDates o d = (d, false) := by
  unfold normalizeDates
  rw [hs, he]
  simp [hup, hue]

/-! ## Claims C7, C8 -/

/-- C7 (amended): `convertToGCalEvent` is deterministic, but not free of
side effects on its argument: it leaves every page field except `date`
unchanged, and leaves `date` itself unchanged exactly on the untouched
branch — when both the start and the end carry a time component.  (The
counterexample below shows the date-only mutation.) -/
theorem c7_convert_mutates_only_date (o : Int) (hloc : Bool) (p : Page) :
    ((convertToGCalEvent o hloc p).1.id = p.id
      ∧ (convertToGCalEvent o hloc p).1.title = p.title
      ∧ (convertToGCalEvent o hloc p).1.eventId = p.eventId
      ∧ (convertToGCalEvent o hloc p).1.calendarId = p.calendarId
      ∧ (convertToGCalEvent o hloc p).1.calendarName = p.calendarName
      ∧ (convertToGCalEvent o hloc p).1.description = p.description
      ∧ (convertToGCalEvent o hloc p).1.location = p.location
      ∧ (convertToGCalEvent o hloc p).1.tags = p.tags
      ∧ (convertToGCalEvent o hloc p).1.status = p.status
      ∧ (convertToGCalEvent o hloc p).1.lastSync = p.lastSync
      ∧ (convertToGCalEvent o hloc p).1.lastEdited = p.lastEdited)
    ∧ ∀ (d : NotionDate) (s e : DateStr), p.date = some d →
        d.start = some s → hasUppercase s = true →
        d.end_ = some e → hasUppercase e = true →
        (convertToGCalEvent o hloc p).1 = p := by
  constructor
  · cases hd : p.date with
    | none => unfold convertToGCalEvent; rw [hd]; exact ⟨rfl, rfl, rfl, rfl, rfl, rfl, rfl, rfl, rfl, rfl, rfl⟩
    | some d =>
      rw [convertToGCalEvent_some o hloc p d hd]
      exact ⟨rfl, rfl, rfl, rfl, rfl, rfl, rfl, rfl, rfl, rfl, rfl⟩
  · intro d s e hd hs hup hue hue2
    rw [convertToGCalEvent_some o hloc p d hd,
        normalizeDates_timed_both o d s e hs hup hue hue2]
    rw [← hd]

theorem c7_convert_mutates_only_date_witness :
    (convertToGCalEvent 0 false c7TimedPage).1 = c7TimedPage :=
  (c7_convert_mutates_only_date 0 false c7TimedPage).2
    ⟨some (.utcTimed 100), some (.utcTimed 200)⟩ (.utcTimed 100) (.utcTimed 200)
    rfl rfl rfl rfl rfl

/-- C7 (counterexample to the claim as stated): the call is not
side-effect-free — for a date-only start it rewrites the page's date start
in place (appending `"T00:00:00"`), so the page object differs after the
call. -/
theorem c7_counterexample :
    (convertToGCalEvent 0 false c7MutPage).1 ≠ c7MutPage
    ∧ c7MutPage.date = some ⟨some (.dateOnly 7), none⟩
    ∧ (convertToGCalEvent 0 false c7MutPage).1.date
        = some ⟨some (.localTimed 7 0), none⟩ := by
  refine ⟨?_, rfl, rfl⟩
  intro h
  have := congrArg Page.date h
  simp only [convertToGCalEvent, c7MutPage] at this
  cases this

/-- C8: for a timed start with no end, `convertToGCalEvent` synthesizes an
event end exactly 60 minutes after the start, on the calendar side only: the
event is created as a timed event with that end, the Notion payloads written
on the push path (`getBaseNotionProperties`, `updateDatabaseSyncTime`) carry
no date property, and pulling the created event back and mapping the
resulting entry again reproduces the same end rather than re-synthesizing a
different one. -/
theorem c8_default_duration (o : Int) (hloc : Bool) (p : Page) (d : NotionDate)
    (s : DateStr) (t : Int)
    (hd : p.date = some d) (hs : d.start = some s) (hup : hasUppercase s = true)
    (ht : jsParse o s = some t) (hend : d.end_ = none) :
    ∃ ev, (convertToGCalEvent o hloc p).2 = some ev
      ∧ ev.end_ = some (.utcTimed (t + 60))
      ∧ ev.all_day = false
      ∧ createEventOnCalendar o ev = some (.timedEvent t (some (t + 60)))
      ∧ (∀ (now : Int) (calIds : String → Option String) (eid : String)
          (cal : Option String),
          (getBaseNotionProperties now calIds eid cal).date = none)
      ∧ (∀ now : Int, (updateDatabaseSyncTimeProps now).date = none)
      ∧ (∀ (now : Int) (calIds : String → Option String) (hloc2 : Bool)
          (ev' : ApiEvent),
          ev'.start = some { date := none, dateTime := some (.utcTimed t) } →
          ev'.end_ = some { date := none, dateTime := some (.utcTimed (t + 60)) } →
          (convertToNotionProperty o now calIds hloc2 ev' []).date
            = some ⟨some (.utcTimed t), some (.utcTimed (t + 60))⟩)
      ∧ (∀ q : Page, q.date = some ⟨some (.utcTimed t), some (.utcTimed (t + 60))⟩ →
          ∃ ev2, (convertToGCalEvent o hloc q).2 = some ev2
            ∧ ev2.end_ = some (.utcTimed (t + 60))) := by
  have hnorm : normalizeDates o d
      = ({ start := some s, end_ := some (.utcTimed (t + 60)) }, false) := by
    rw [normalizeDates_timed_noEnd o d s hs hup hend]
    unfold defaultEnd
    rw [ht]
  refine ⟨{ id := strOpt p.eventId, summary := strOpt p.title
            description := strOpt p.description
            location := if hloc then strOpt p.location else none
            start := some s, end_ := some (.utcTimed (t + 60)), all_day := false },
          ?_, rfl, rfl, ?_, fun _ _ _ _ => rfl, fun _ => rfl, ?_, ?_⟩
  · rw [convertToGCalEvent_some o hloc p d hd, hnorm]
  · unfold createEventOnCalendar
    dsimp only
    rw [ht]
    rfl
  · intro now calIds hloc2 ev' hst hen
    unfold convertToNotionProperty
    rw [hst, hen]
  · intro q hq
    refine ⟨{ id := strOpt q.eventId, summary := strOpt q.title
              description := strOpt q.description
              location := if hloc then strOpt q.location else none
              start := some (.utcTimed t), end_ := some (.utcTimed (t + 60))
              all_day := false }, ?_, rfl⟩
    rw [convertToGCalEvent_some o hloc q _ hq,
        normalizeDates_timed_both o _ (.utcTimed t) (.utcTimed (t + 60)) rfl rfl rfl rfl]

theorem c8_default_duration_witness :
    ∃ ev, (convertToGCalEvent 0 false c8Page).2 = some ev
      ∧ ev.end_ = some (.utcTimed (4920 + 60))
      ∧ ev.all_day = false
      ∧ createEventOnCalendar 0 ev = some (.timedEvent 4920 (some (4920 + 60)))
      ∧ (∀ (now : Int) (calIds : String → Option String) (eid : String)
          (cal : Option String),
          (getBaseNotionProperties now calIds eid cal).date = none)
      ∧ (∀ now : Int, (updateDatabaseSyncTimeProps now).date = none)
      ∧ (∀ (now : Int) (calIds : String → Option String) (hloc2 : Bool)
          (ev' : ApiEvent),
          ev'.start = some { date := none, dateTime := some (.utcTimed 4920) } →
          ev'.end_ = some { date := none, dateTime := some (.utcTimed (4920 + 60)) } →
          (convertToNotionProperty 0 now calIds hloc2 ev' []).date
            = some ⟨some (.utcTimed 4920), some (.utcTimed (4920 + 60))⟩)
      ∧ (∀ q : Page, q.date = some ⟨some (.utcTimed 4920), some (.utcTimed (4920 + 60))⟩ →
          ∃ ev2, (convertToGCalEvent 0 false q).2 = some ev2
            ∧ ev2.end_ = some (.utcTimed (4920 + 60))) :=
  c8_default_duration 0 false c8Page ⟨some (.localTimed 3 600), none⟩
    (.localTimed 3 600) 4920 rfl rfl rfl (by decide) rfl

/-! ## Claim C2 -/

/-- C2 (counterexample to the claim as stated): the all-day round trip is
not timezone-proof.  East of UTC (offset `-120`, e.g. UTC+2) a single-day
all-day entry starting on day 1 comes back starting on day 0: the pull-side
"offset timezone" correction moves the UTC-midnight instant *backwards*
across midnight before the date is read off in UTC. -/
theorem c2_counterexample :
    c2Page.date = some ⟨some (.dateOnly 1), none⟩
    ∧ allDayRoundTrip (-120) c2Page = some ⟨some (.dateOnly 0), none⟩
    ∧ allDayRoundTrip (-120) c2Page ≠ some ⟨some (.dateOnly 1), none⟩ := by
  refine ⟨rfl, by decide, by decide⟩

/-- C2 (amended): when the script timezone offset is `0` (UTC), the all-day
round trip is exact: a single-day entry (no end) comes back with the same
start and no end, and a multi-day entry (end strictly after the start) comes
back with the same start and end.  (An end equal to the start is normalized
away to `null` by the pull side, and non-zero offsets shift dates, per the
counterexample.) -/
theorem c2_allday_roundtrip_utc (p : Page) (s : Int) (e : Option Int)
    (hd : p.date = some ⟨some (.dateOnly s), e.map (fun x => .dateOnly x)⟩)
    (he : ∀ x, e = some x → s < x) :
    allDayRoundTrip 0 p = some ⟨some (.dateOnly s), e.map (fun x => .dateOnly x)⟩ := by
  have h1 : localDay 0 (s * 1440 + 0 + 0) = s := by unfold localDay; omega
  have h2 : utcDay (s * 1440 + 0) = s := by unfold utcDay; omega
  cases e with
  | none =>
    simp only [Option.map_none'] at hd ⊢
    have hev : (convertToGCalEvent 0 false p).2
        = some { id := strOpt p.eventId, summary := strOpt p.title
                 description := strOpt p.description, location := none
                 start := some (.localTimed s 0), end_ := none, all_day := true } := by
      rw [convertToGCalEvent_some 0 false p _ hd,
          normalizeDates_dateOnly_start 0 _ s rfl]
      rfl
    have hce : createEventOnCalendar 0
        { id := strOpt p.eventId, summary := strOpt p.title
          description := strOpt p.description, location := none
          start := some (.localTimed s 0), end_ := none, all_day := true }
        = some (.allDayEvent s (s + 1)) := by
      unfold createEventOnCalendar
      dsimp only [jsParse]
      rw [h1]
      rfl
    have h3 : utcDay ((s + 1) * 1440 + 0 - 1440) = s := by unfold utcDay; omega
    have hpull : (convertToNotionProperty 0 0 (fun _ => none) false
        (apiEventOfCreated (strOpt p.title) (.allDayEvent s (s + 1))) []).date
        = some ⟨some (.dateOnly s), none⟩ := by
      unfold convertToNotionProperty apiEventOfCreated
      dsimp only
      unfold pullAllDayDates
      dsimp only
      rw [h2, h3]
      simp
    unfold allDayRoundTrip
    rw [hev]
    dsimp only
    rw [hce]
    exact hpull
  | some x =>
    have hsx : s < x := he x rfl
    simp only [Option.map_some'] at hd ⊢
    have hev : (convertToGCalEvent 0 false p).2
        = some { id := strOpt p.eventId, summary := strOpt p.title
                 description := strOpt p.description, location := none
                 start := some (.localTimed s 0), end_ := some (.dateOnly x)
                 all_day := true } := by
      rw [convertToGCalEvent_some 0 false p _ hd,
          normalizeDates_dateOnly_start 0 _ s rfl]
      rfl
    have h4 : localDay 0 (x * 1440 + 1440) = x + 1 := by unfold localDay; omega
    have hce : createEventOnCalendar 0
        { id := strOpt p.eventId, summary := strOpt p.title
          description := strOpt p.description, location := none
          start := some (.localTimed s 0), end_ := some (.dateOnly x)
          all_day := true }
        = some (.allDayEvent s (x + 1)) := by
      unfold createEventOnCalendar
      dsimp only [jsParse]
      rw [h1, h4]
      rfl
    have h5 : utcDay ((x + 1) * 1440 + 0 - 1440) = x := by unfold utcDay; omega
    have hpull : (convertToNotionProperty 0 0 (fun _ => none) false
        (apiEventOfCreated (strOpt p.title) (.allDayEvent s (x + 1))) []).date
        = some ⟨some (.dateOnly s), some (.dateOnly x)⟩ := by
      unfold convertToNotionProperty apiEventOfCreated
      dsimp only
      unfold pullAllDayDates
      dsimp only
      rw [h2, h5]
      rw [if_neg (Int.ne_of_lt hsx)]
    unfold allDayRoundTrip
    rw [hev]
    dsimp only
    rw [hce]
    exact hpull

theorem c2_allday_roundtrip_utc_witness :
    allDayRoundTrip 0 c2SinglePage = some ⟨some (.dateOnly 5), none⟩
    ∧ allDayRoundTrip 0 c2MultiPage
        = some ⟨some (.dateOnly 5), some (.dateOnly 8)⟩ :=
  ⟨c2_allday_roundtrip_utc c2SinglePage 5 none rfl (fun x h => by cases h),
   c2_allday_roundtrip_utc c2MultiPage 5 (some 8) rfl
     (fun x h => by cases h; decide)⟩

end NotionGcalSync
